import Mathlib

/-!
# User service: repository and HTTP handler

A shallow embedding of `internal/user` (model.go, repository.go, handler.go) and of
`internal/shared` (errs/errors.go, responses/json.go), followed by the properties of the
user store and of the two handlers.

Conventions of the embedding.

* The handler observes an error of the repository only through `err.Error()` (and through
  `== nil`), so an error returned by the repository is its text: `Except String α`.
* The `*gorm.DB` handle is a collaborator.  The repository is written against the three
  statements it issues (`Gorm`), and `memDB` is the fault-free relational semantics of those
  statements on a table of users.
* `mail.ParseAddress` is a collaborator too; the handler takes it as a parameter and only
  tests whether it returned an error.
* `uint` identifiers are natural numbers.  The `id` column of the table holds keys up to
  `2 ^ 63 - 1` (`maxKey`): an insert fails when the auto-increment has no key left or when an
  explicit id is above that bound.  `strconv.ParseUint(idStr, 10, 32)` is embedded with its
  64-bit accumulator and its `bitSize` bound.  `int` ages are integers.
-/

namespace UserService

/-! ## internal/user/model.go -/

/-- The `User` record.  `CreatedAt` is a clock reading, `0` being the zero time. -/
structure User where
  ID : Nat := 0
  Name : String := ""
  Email : String := ""
  Age : Int := 0
  CreatedAt : Nat := 0
deriving DecidableEq, Repr

/-- The decoded body of `POST /users`. -/
structure CreateUserRequest where
  Name : String := ""
  Email : String := ""
  Age : Int := 0
deriving DecidableEq, Repr

/-- The externally visible projection of a user. -/
structure UserResponse where
  ID : Nat
  Name : String
  Email : String
  Age : Int
  CreatedAt : Nat
deriving DecidableEq, Repr

/-- `(*User).ToResponse`. -/
def User.ToResponse (u : User) : UserResponse :=
  { ID := u.ID, Name := u.Name, Email := u.Email, Age := u.Age, CreatedAt := u.CreatedAt }

/-! ## The gorm collaborator -/

/-- An error value of a gorm statement: the sentinel `gorm.ErrRecordNotFound`, or any other
error, known by its text.  The code compares against the sentinel by identity. -/
inductive GormError where
  | ErrRecordNotFound
  | driver (msg : String)
deriving DecidableEq, Repr

/-- `err.Error()` of a gorm error. -/
def GormError.Error : GormError → String
  | .ErrRecordNotFound => "record not found"
  | .driver msg => msg

/-- The three statements the repository issues on a `*gorm.DB` whose state has type `σ`:
`Where("email = ?", e).First(&u)`, `First(&u, id)` and `Create(user)`.  The two queries read
the state; `Create` returns the new state with the stored user or an error. -/
structure Gorm (σ : Type) where
  FirstWhereEmail : σ → String → Except GormError User
  First : σ → Nat → Except GormError User
  Create : σ → User → σ × Except GormError User

/-- A `users` table: its rows in insertion order, whether the unique index on `email`
declared by the model tag has been migrated, and the clock used for `autoCreateTime`. -/
structure DB where
  rows : List User := []
  emailIndex : Bool := true
  now : Nat := 1
deriving DecidableEq, Repr

/-- The last key of the `id` column: the column stores a signed 64-bit integer. -/
def maxKey : Nat := 2 ^ 63 - 1

/-- The largest key in the table, `0` for the empty table. -/
def DB.largestKey (db : DB) : Nat :=
  (db.rows.map (fun r => r.ID)).foldr max 0

/-- The key an auto-increment column hands out: one more than the largest key in the table,
and none once the largest key is the last one. -/
def DB.nextID (db : DB) : Option Nat :=
  if db.largestKey < maxKey then some (db.largestKey + 1) else none

/-- `SELECT * FROM users WHERE email = ? ORDER BY id LIMIT 1`.  The repository only tests
whether a row came back, so the row returned is the first match in the table. -/
def DB.FirstWhereEmail (db : DB) (email : String) : Except GormError User :=
  match db.rows.find? (fun r => r.Email == email) with
  | some r => .ok r
  | none => .error .ErrRecordNotFound

/-- `SELECT * FROM users WHERE id = ? ORDER BY id LIMIT 1`: the row with that key. -/
def DB.First (db : DB) (id : Nat) : Except GormError User :=
  match db.rows.find? (fun r => r.ID == id) with
  | some r => .ok r
  | none => .error .ErrRecordNotFound

/-- The insert of a row whose key is settled: refused when the primary key is taken, and,
where the unique index on `email` exists, when the email is taken. -/
def DB.insertRow (db : DB) (row : User) : DB × Except GormError User :=
  if db.rows.any (fun r => r.ID == row.ID) then
    (db, .error (.driver "UNIQUE constraint failed: users.id"))
  else if db.emailIndex && db.rows.any (fun r => r.Email == row.Email) then
    (db, .error (.driver "UNIQUE constraint failed: users.email"))
  else
    ({ db with rows := db.rows ++ [row] }, .ok row)

/-- `INSERT INTO users`.  An id above the last key does not convert to a column value and
the statement is not run.  A zero `ID` is replaced by the next key, and the insert fails
when there is none left; a zero `CreatedAt` is replaced by the clock.  The row then goes
through the constraints of the table. -/
def DB.Create (db : DB) (user : User) : DB × Except GormError User :=
  if maxKey < user.ID then
    (db, .error (.driver
      "sql: converting argument $5 type: uint64 values with high bit set are not supported"))
  else
    match (if user.ID = 0 then db.nextID else some user.ID) with
    | none => (db, .error (.driver "database or disk is full"))
    | some id =>
      db.insertRow
        { user with
          ID := id
          CreatedAt := if user.CreatedAt = 0 then db.now else user.CreatedAt }

/-- The row `DB.Create` stores for a user that carries no id. -/
def DB.newRow (db : DB) (u : User) : User :=
  { u with
    ID := db.largestKey + 1
    CreatedAt := if u.CreatedAt = 0 then db.now else u.CreatedAt }

/-- The fault-free database: every statement runs against the table. -/
def memDB : Gorm DB :=
  { FirstWhereEmail := DB.FirstWhereEmail, First := DB.First, Create := DB.Create }

/-! ## internal/user/repository.go -/

/-- The `UserRepository` interface, over a store whose state has type `σ`.  `Create` fills
in the user it is given (returned here) or fails; `FindByID` reads. -/
structure UserRepository (σ : Type) where
  Create : σ → User → σ × Except String User
  FindByID : σ → Nat → Except String User

/-- `userRepository.Create`. -/
def userRepository.Create {σ : Type} (r : Gorm σ) (db : σ) (user : User) :
    σ × Except String User :=
  match r.FirstWhereEmail db user.Email with
  | .ok _ => (db, .error ("user with email " ++ user.Email ++ " already exists"))
  | .error err =>
    if err ≠ GormError.ErrRecordNotFound then
      (db, .error ("error checking email uniqueness: " ++ err.Error))
    else
      match r.Create db user with
      | (db', .ok user') => (db', .ok user')
      | (db', .error e) => (db', .error e.Error)

/-- `userRepository.FindByID`. -/
def userRepository.FindByID {σ : Type} (r : Gorm σ) (db : σ) (id : Nat) : Except String User :=
  match r.First db id with
  | .ok user => .ok user
  | .error err =>
    if err = GormError.ErrRecordNotFound then
      .error ("user with ID " ++ toString id ++ " not found")
    else
      .error ("error finding user: " ++ err.Error)

/-- `NewUserRepository`. -/
def NewUserRepository {σ : Type} (db : Gorm σ) : UserRepository σ :=
  { Create := userRepository.Create db, FindByID := userRepository.FindByID db }

/-! ## The HTTP response, net/http and encoding/json -/

/-- A JSON value, as `encoding/json` writes it. -/
inductive JSON where
  | null
  | str (s : String)
  | int (n : Int)
  | time (t : Nat)
  | obj (fields : List (String × JSON))

/-- What has been written to the response body: the bytes of a plain-text body, or one JSON
value written by `json.NewEncoder(w).Encode`. -/
inductive Body where
  | text (s : String)
  | json (v : JSON)

/-- The response a handler leaves in the `http.ResponseWriter`. -/
structure Response where
  Code : Nat
  ContentType : String
  Body : Body

def StatusOK : Nat := 200
def StatusCreated : Nat := 201
def StatusBadRequest : Nat := 400
def StatusNotFound : Nat := 404
def StatusConflict : Nat := 409
def StatusInternalServerError : Nat := 500

/-- `http.Error(w, error, code)`: a plain-text response whose body is the message followed
by a newline. -/
def http.Error (error : String) (code : Nat) : Response :=
  { Code := code, ContentType := "text/plain; charset=utf-8", Body := .text (error ++ "\n") }

/-- The JSON encoding of a `UserResponse`, with the field names of its struct tags. -/
def UserResponse.toJSON (u : UserResponse) : JSON :=
  .obj [("id", .int u.ID), ("name", .str u.Name), ("email", .str u.Email),
        ("age", .int u.Age), ("created_at", .time u.CreatedAt)]

/-- The success response both handlers write: the map with `status` and `data`. -/
def successResponse (code : Nat) (user : User) : Response :=
  { Code := code, ContentType := "application/json",
    Body := .json (.obj [("data", user.ToResponse.toJSON), ("status", .str "success")]) }

/-! ## internal/shared/errs/errors.go -/

/-- `AppError`, without the wrapped `Err`, which no response shows. -/
structure AppError where
  Code : Nat
  Message : String
deriving DecidableEq, Repr

def NewAppError (code : Nat) (message : String) : AppError :=
  { Code := code, Message := message }

def NewBadRequest (message : String) : AppError := NewAppError StatusBadRequest message
def NewNotFound (message : String) : AppError := NewAppError StatusNotFound message
def NewConflict (message : String) : AppError := NewAppError StatusConflict message
def NewInternalServerError (message : String) : AppError :=
  NewAppError StatusInternalServerError message

/-! ## internal/shared/responses/json.go -/

/-- The JSON encoding of `Response{Status: "error", Error: message}`: `data` and `message`
are empty and omitted, and `error` is omitted as well when it is empty. -/
def responses.errorEnvelope (message : String) : JSON :=
  .obj (("status", .str "error") :: (if message = "" then [] else [("error", .str message)]))

/-- `responses.Error`. -/
def responses.Error (appErr : AppError) : Response :=
  { Code := appErr.Code, ContentType := "application/json",
    Body := .json (responses.errorEnvelope appErr.Message) }

def responses.BadRequest (message : String) : Response := responses.Error (NewBadRequest message)
def responses.NotFound (message : String) : Response := responses.Error (NewNotFound message)
def responses.Conflict (message : String) : Response := responses.Error (NewConflict message)
def responses.InternalServerError (message : String) : Response :=
  responses.Error (NewInternalServerError message)

/-! ## strconv.ParseUint -/

/-- The two errors of `strconv`. -/
inductive NumError where
  | ErrSyntax
  | ErrRange
deriving DecidableEq, Repr

/-- `lower(c)`, that is `c | ('x' - 'X')`. -/
def strconv.lower (c : Nat) : Nat := c ||| ('x'.toNat - 'X'.toNat)

/-- The digit loop of `ParseUint` for an explicit base, with the 64-bit accumulator `n`.
A character outside ASCII is a run of bytes that are neither digits nor letters. -/
def strconv.parseLoop (base maxVal cutoff : Nat) : List Char → Nat → Except NumError Nat
  | [], n => .ok n
  | c :: cs, n =>
    let d? : Option Nat :=
      if '0'.toNat ≤ c.toNat ∧ c.toNat ≤ '9'.toNat then some (c.toNat - '0'.toNat)
      else if 'a'.toNat ≤ strconv.lower c.toNat ∧ strconv.lower c.toNat ≤ 'z'.toNat then
        some (strconv.lower c.toNat - 'a'.toNat + 10)
      else none
    match d? with
    | none => .error .ErrSyntax
    | some d =>
      if d ≥ base then .error .ErrSyntax
      else if n ≥ cutoff then .error .ErrRange
      else
        let n' := (n * base) % 2 ^ 64
        let n1 := (n' + d) % 2 ^ 64
        if n1 < n' ∨ n1 > maxVal then .error .ErrRange
        else strconv.parseLoop base maxVal cutoff cs n1

/-- `strconv.ParseUint(s, base, bitSize)` for an explicit base `2 ≤ base ≤ 36` and
`1 ≤ bitSize ≤ 64`, the only way the handler calls it. -/
def strconv.ParseUint (s : String) (base bitSize : Nat) : Except NumError Nat :=
  if s = "" then .error .ErrSyntax
  else
    let cutoff := (2 ^ 64 - 1) / base + 1
    let maxVal := 2 ^ bitSize - 1
    strconv.parseLoop base maxVal cutoff s.toList 0

/-! ## internal/user/handler.go -/

/-- `UserHandler.CreateUser` on a decoded body (`none`: the body did not decode), with
`ParseAddress e` telling whether `mail.ParseAddress(e)` returned no error. -/
def UserHandler.CreateUser {σ : Type} (ParseAddress : String → Bool)
    (userRepo : UserRepository σ) (db : σ) (body : Option CreateUserRequest) : σ × Response :=
  match body with
  | none => (db, http.Error "Invalid request body" StatusBadRequest)
  | some req =>
    if req.Name = "" ∨ req.Email = "" ∨ req.Age ≤ 0 ∨ req.Age > 150 then
      (db, http.Error "Invalid input: name, email, and age (1-150) are required"
        StatusBadRequest)
    else if ParseAddress req.Email = false then
      (db, http.Error "Invalid email format" StatusBadRequest)
    else
      let user : User := { Name := req.Name, Email := req.Email, Age := req.Age }
      match userRepo.Create db user with
      | (db', .error err) =>
        if err = "user with email " ++ req.Email ++ " already exists" then
          (db', http.Error err StatusConflict)
        else
          (db', http.Error "Failed to create user" StatusInternalServerError)
      | (db', .ok user') => (db', successResponse StatusCreated user')

/-- `UserHandler.GetUser` on the `id` URL parameter (`""` when the route has none). -/
def UserHandler.GetUser {σ : Type} (userRepo : UserRepository σ) (db : σ) (idStr : String) :
    Response :=
  if idStr = "" then http.Error "User ID is required" StatusBadRequest
  else
    match strconv.ParseUint idStr 10 32 with
    | .error _ => http.Error "Invalid user ID" StatusBadRequest
    | .ok id =>
      match userRepo.FindByID db id with
      | .error err =>
        if err = "user with ID " ++ toString id ++ " not found" then
          http.Error err StatusNotFound
        else
          http.Error "Failed to retrieve user" StatusInternalServerError
      | .ok user => successResponse StatusOK user

/-! ## Concrete collaborators and the notions the properties are stated with -/

/-- A table whose one row holds the last key of the `id` column. -/
def lastKeyTable : DB :=
  { rows := [{ ID := 9223372036854775807, Name := "Carol", Email := "carol@example.com",
               Age := 41, CreatedAt := 1 }] }

/-- A database whose every statement fails with the driver error `msg`. -/
def faultyDB (msg : String) : Gorm DB :=
  { FirstWhereEmail := fun _ _ => .error (.driver msg)
    First := fun _ _ => .error (.driver msg)
    Create := fun db _ => (db, .error (.driver msg)) }

/-- `atext` of RFC 5322: a letter, a digit or one of the printable specials. -/
def isAtext (c : Char) : Bool :=
  c.isAlphanum ||
    [33, 35, 36, 37, 38, 39, 42, 43, 45, 47, 61, 63, 94, 95, 96, 123, 124, 125, 126].contains
      c.toNat

/-- Reads a `dot-atom-text`; the flag tells whether the last character read was `atext`. -/
def dotAtomFrom : Bool → List Char → Bool
  | last, [] => last
  | last, c :: cs =>
    if c = '.' then last && dotAtomFrom false cs else isAtext c && dotAtomFrom true cs

/-- `dot-atom-text` of RFC 5322: non-empty runs of `atext` separated by single dots. -/
def isDotAtom (cs : List Char) : Bool := dotAtomFrom false cs

/-- The email-address grammar the specification names, a single `addr-spec` of the form
`local@domain`, both sides a `dot-atom`.  It follows the specification, not the handler. -/
def specAddrSpec (s : String) : Bool :=
  isDotAtom (s.toList.takeWhile (fun c => c != '@')) &&
    match s.toList.dropWhile (fun c => c != '@') with
    | [] => false
    | _ :: domain => isDotAtom domain

/-- The unquoted, comment-free core of the RFC 5322 `mailbox` grammar, which is what
`mail.ParseAddress` is documented to parse: an `addr-spec`, or a display name followed by an
`addr-spec` in angle brackets, as in `Barry Gibbs <bg@example.com>`.  It instantiates the
`ParseAddress` parameter where a concrete validator is needed. -/
def rfc5322Mailbox (s : String) : Bool :=
  specAddrSpec s ||
    (match s.toList.dropWhile (fun c => c != '<') with
     | [] => false
     | _ :: rest =>
       (s.toList.takeWhile (fun c => c != '<')).all (fun c => isAtext c || c == ' ') &&
         rest.getLast? == some '>' && specAddrSpec (String.mk rest.dropLast))

/-- A decimal digit, `'0'` to `'9'`. -/
def isDecimalDigit (c : Char) : Bool := decide ('0'.toNat ≤ c.toNat ∧ c.toNat ≤ '9'.toNat)

/-- The decimal text of a non-negative integer: a non-empty string of decimal digits. -/
def isDecimalText (s : String) : Bool := s != "" && s.toList.all isDecimalDigit

/-- The integer a list of decimal digits denotes after the digits already read as `n`. -/
def decimalFrom (n : Nat) (cs : List Char) : Nat :=
  cs.foldl (fun n c => n * 10 + (c.toNat - '0'.toNat)) n

/-- The integer a string of decimal digits denotes. -/
def decimalValue (s : String) : Nat := decimalFrom 0 s.toList

/-- The body is the error envelope: the JSON object with `status` equal to `error` and a
string under `error`. -/
def isErrorEnvelope : Body → Bool
  | .json (.obj [("status", .str "error"), ("error", .str _)]) => true
  | _ => false

/-! ## Sequential use of the store -/

/-- One call on the repository. -/
inductive Call where
  | create (user : User)
  | findByID (id : Nat)

/-- The store after one call; `FindByID` returns its result and reads only. -/
def Call.run (db : DB) : Call → DB
  | .create user => (userRepository.Create memDB db user).1
  | .findByID id => (fun _ => db) (userRepository.FindByID memDB db id)

/-- The store after a finite sequence of calls. -/
def runCalls (db : DB) (calls : List Call) : DB := calls.foldl Call.run db

/-- No two records of the table share an email. -/
def EmailsUnique (db : DB) : Prop := db.rows.Pairwise (fun a b => a.Email ≠ b.Email)

instance (db : DB) : Decidable (EmailsUnique db) := by
  unfold EmailsUnique; infer_instance

/-! ## Facts about the table -/

theorem DB.id_le_largestKey (db : DB) : ∀ r ∈ db.rows, r.ID ≤ db.largestKey := by
  unfold DB.largestKey
  generalize db.rows = rows
  induction rows with
  | nil => intro r hr; cases hr
  | cons a as ih =>
    intro r hr
    simp only [List.map_cons, List.foldr_cons]
    rcases List.mem_cons.mp hr with h | h
    · subst h; omega
    · have := ih r h; omega

/-- While every key is below the last one, so is the largest. -/
theorem DB.largestKey_lt (db : DB) (h : ∀ r ∈ db.rows, r.ID < maxKey) :
    db.largestKey < maxKey := by
  unfold DB.largestKey
  generalize db.rows = rows at h
  induction rows with
  | nil => simp [maxKey]
  | cons a as ih =>
    simp only [List.map_cons, List.foldr_cons]
    have h1 := h a (List.mem_cons_self _ _)
    have h2 := ih (fun r hr => h r (List.mem_cons_of_mem _ hr))
    omega

theorem DB.find_email_none (db : DB) (email : String) (h : ∀ r ∈ db.rows, r.Email ≠ email) :
    db.rows.find? (fun r => r.Email == email) = none := by
  rw [List.find?_eq_none]
  intro r hr
  simpa using h r hr

theorem DB.find_id_none (db : DB) (id : Nat) (h : ∀ r ∈ db.rows, r.ID ≠ id) :
    db.rows.find? (fun r => r.ID == id) = none := by
  rw [List.find?_eq_none]
  intro r hr
  simpa using h r hr

theorem DB.any_id_false (db : DB) (id : Nat) (h : ∀ r ∈ db.rows, r.ID ≠ id) :
    db.rows.any (fun r => r.ID == id) = false := by
  rw [List.any_eq_false]
  intro r hr
  simpa using h r hr

theorem DB.any_email_false (db : DB) (email : String) (h : ∀ r ∈ db.rows, r.Email ≠ email) :
    db.rows.any (fun r => r.Email == email) = false := by
  rw [List.any_eq_false]
  intro r hr
  simpa using h r hr

/-- On a table with a key left and without the email, `userRepository.Create` of a user
without id appends the new row. -/
theorem create_fresh (db : DB) (u : User) (hid : u.ID = 0)
    (hroom : ∀ r ∈ db.rows, r.ID < maxKey)
    (hemail : ∀ r ∈ db.rows, r.Email ≠ u.Email) :
    userRepository.Create memDB db u =
      ({ db with rows := db.rows ++ [db.newRow u] }, .ok (db.newRow u)) := by
  have hfresh : ∀ r ∈ db.rows, r.ID ≠ db.largestKey + 1 := fun r hr => by
    have := db.id_le_largestKey r hr; omega
  have hlt := db.largestKey_lt hroom
  have hnot : ¬ maxKey < u.ID := by rw [hid]; omega
  simp only [userRepository.Create, memDB, DB.FirstWhereEmail, db.find_email_none _ hemail,
    DB.Create, hnot, hid, if_true, ne_eq, not_true_eq_false, if_false, DB.nextID, hlt,
    DB.insertRow, db.any_id_false _ hfresh, db.any_email_false _ hemail, Bool.and_false,
    DB.newRow]
  simp

/-- After the append, the new row is the one found under its id. -/
theorem find_new_row (db : DB) (u : User) :
    userRepository.FindByID memDB { db with rows := db.rows ++ [db.newRow u] }
        (db.largestKey + 1) = .ok (db.newRow u) := by
  have hfresh : ∀ r ∈ db.rows, r.ID ≠ db.largestKey + 1 := fun r hr => by
    have := db.id_le_largestKey r hr; omega
  simp [userRepository.FindByID, memDB, DB.First, List.find?_append, db.find_id_none _ hfresh,
    DB.newRow]

/-- When the table holds the email, `userRepository.Create` fails with the duplicate-email
error and returns the table as it was. -/
theorem create_duplicate (db : DB) (u : User) (h : ∃ r ∈ db.rows, r.Email = u.Email) :
    userRepository.Create memDB db u =
      (db, .error ("user with email " ++ u.Email ++ " already exists")) := by
  obtain ⟨r, hr, he⟩ := h
  have hsome : ∃ x, db.rows.find? (fun r => r.Email == u.Email) = some x := by
    cases hf : db.rows.find? (fun r => r.Email == u.Email) with
    | some x => exact ⟨x, rfl⟩
    | none =>
      rw [List.find?_eq_none] at hf
      exact absurd (by simpa using he) (hf r hr)
  obtain ⟨x, hx⟩ := hsome
  simp [userRepository.Create, memDB, DB.FirstWhereEmail, hx]

theorem checking_ne_duplicate (msg email : String) :
    "error checking email uniqueness: " ++ msg ≠
      "user with email " ++ email ++ " already exists" := by
  intro h
  have := congrArg String.data h
  simp [String.data_append] at this

theorem finding_ne_not_found (msg : String) (id : Nat) :
    "error finding user: " ++ msg ≠ "user with ID " ++ toString id ++ " not found" := by
  intro h
  have := congrArg String.data h
  simp [String.data_append] at this

/-- The insert of a row is refused and leaves the table as it was, or appends the row. -/
theorem DB.insertRow_cases (db : DB) (row : User) :
    (∃ e, db.insertRow row = (db, .error e)) ∨
      db.insertRow row = ({ db with rows := db.rows ++ [row] }, .ok row) := by
  unfold DB.insertRow
  by_cases h1 : (db.rows.any fun r => r.ID == row.ID) = true
  · left
    exact ⟨.driver "UNIQUE constraint failed: users.id", by simp only [h1, if_true]⟩
  · by_cases h2 : (db.emailIndex && db.rows.any fun r => r.Email == row.Email) = true
    · left
      exact ⟨.driver "UNIQUE constraint failed: users.email",
        by simp only [h1, h2, if_true]; rfl⟩
    · right
      simp only [h1, h2]
      rfl

/-- An insert is refused and leaves the table as it was, or appends one row that carries
the email of the user. -/
theorem DB.Create_cases (db : DB) (u : User) :
    (∃ e, db.Create u = (db, .error e)) ∨
      ∃ row, row.Email = u.Email ∧
        db.Create u = ({ db with rows := db.rows ++ [row] }, .ok row) := by
  unfold DB.Create
  by_cases h0 : maxKey < u.ID
  · left
    exact ⟨.driver
      "sql: converting argument $5 type: uint64 values with high bit set are not supported",
      by simp only [h0, if_true]⟩
  · simp only [h0, if_false]
    cases hkey : (if u.ID = 0 then db.nextID else some u.ID) with
    | none => left; exact ⟨.driver "database or disk is full", rfl⟩
    | some id =>
      rcases db.insertRow_cases
          { u with
            ID := id
            CreatedAt := if u.CreatedAt = 0 then db.now else u.CreatedAt } with
        ⟨e, he⟩ | he
      · left; exact ⟨e, he⟩
      · right
        exact ⟨{ u with
            ID := id
            CreatedAt := if u.CreatedAt = 0 then db.now else u.CreatedAt }, rfl, he⟩

/-- Every outcome of `userRepository.Create` on the table either leaves the rows as they
were or appends one row whose email no row had. -/
theorem create_rows (db : DB) (u : User) :
    (userRepository.Create memDB db u).1.rows = db.rows ∨
      ∃ row, (userRepository.Create memDB db u).1.rows = db.rows ++ [row] ∧
        ∀ r ∈ db.rows, r.Email ≠ row.Email := by
  by_cases h : ∃ r ∈ db.rows, r.Email = u.Email
  · left; rw [create_duplicate db u h]
  · have hemail : ∀ r ∈ db.rows, r.Email ≠ u.Email := fun r hr he => h ⟨r, hr, he⟩
    simp only [userRepository.Create, memDB, DB.FirstWhereEmail, db.find_email_none _ hemail,
      ne_eq, not_true_eq_false, if_false]
    rcases db.Create_cases u with ⟨e, he⟩ | ⟨row, hrow, he⟩
    · left; rw [he]
    · right
      rw [he]
      exact ⟨row, rfl, fun r hr => hrow ▸ hemail r hr⟩

theorem call_keeps_unique (db : DB) (c : Call) (h : EmailsUnique db) :
    EmailsUnique (c.run db) := by
  cases c with
  | findByID id => exact h
  | create u =>
    unfold EmailsUnique at *
    show List.Pairwise _ (userRepository.Create memDB db u).1.rows
    rcases create_rows db u with h1 | ⟨row, h1, h2⟩
    · rw [h1]; exact h
    · rw [h1, List.pairwise_append]
      refine ⟨h, List.pairwise_singleton _ _, ?_⟩
      intro a ha b hb
      rw [List.mem_singleton] at hb
      subst hb
      exact h2 a ha

/-! ## The store -/

/-- C1, amended. On every table whose largest id is below `2 ^ 63 - 1` and for every user
given by a non-empty name, an email that no row has and an age in [1,150], its id and
creation time left for the store to assign, `userRepository.Create` succeeds and assigns a
non-zero id, and `FindByID` on that id then succeeds and returns a record with the same
name, email and age. -/
theorem create_then_find_by_id (db : DB) (name email : String) (age : Int)
    (hroom : ∀ r ∈ db.rows, r.ID < 2 ^ 63 - 1)
    (_hname : name ≠ "") (hemail : ∀ r ∈ db.rows, r.Email ≠ email)
    (_hage : 1 ≤ age ∧ age ≤ 150) :
    ∃ db' u',
      userRepository.Create memDB db { Name := name, Email := email, Age := age } =
        (db', .ok u') ∧
      u'.ID ≠ 0 ∧
      ∃ found, userRepository.FindByID memDB db' u'.ID = .ok found ∧
        found.Name = name ∧ found.Email = email ∧ found.Age = age := by
  refine ⟨_, _, create_fresh db _ rfl hroom hemail, ?_, _, find_new_row db _, rfl, rfl, rfl⟩
  simp [DB.newRow]

theorem create_then_find_by_id_witness :
    ∃ db' u', userRepository.Create memDB
        { rows := [{ ID := 1, Name := "Carol", Email := "carol@example.com", Age := 41 }] }
        { Name := "Alice", Email := "alice@example.com", Age := 30 } = (db', .ok u') ∧
      u'.ID ≠ 0 ∧
      ∃ found, userRepository.FindByID memDB db' u'.ID = .ok found ∧
        found.Name = "Alice" ∧ found.Email = "alice@example.com" ∧ found.Age = 30 :=
  create_then_find_by_id
    { rows := [{ ID := 1, Name := "Carol", Email := "carol@example.com", Age := 41 }] }
    "Alice" "alice@example.com" 30 (by decide) (by decide) (by decide) (by decide)

/-- C1 as stated fails: on the table whose one row holds the last key `2 ^ 63 - 1`, a user
with a non-empty name, an email that no row has and age 30 is not created; the insert has
no key left and `userRepository.Create` returns its error, the table unchanged. -/
theorem create_fails_without_key_left :
    lastKeyTable.rows.map (fun r => r.ID) = [2 ^ 63 - 1] ∧
      (∀ r ∈ lastKeyTable.rows, r.Email ≠ "alice@example.com") ∧
      userRepository.Create memDB lastKeyTable
          { Name := "Alice", Email := "alice@example.com", Age := 30 } =
        (lastKeyTable, .error "database or disk is full") := by
  exact ⟨by decide, by decide, rfl⟩

/-- C2. On every table that holds a record with the email of the user, `userRepository.Create`
fails with the duplicate-email error `user with email e already exists` and leaves the
store as it was: no row is written and the record count is unchanged. -/
theorem create_duplicate_email (db : DB) (u : User) (h : ∃ r ∈ db.rows, r.Email = u.Email) :
    (userRepository.Create memDB db u).2 =
        .error ("user with email " ++ u.Email ++ " already exists") ∧
      (userRepository.Create memDB db u).1 = db ∧
      (userRepository.Create memDB db u).1.rows.length = db.rows.length := by
  rw [create_duplicate db u h]
  exact ⟨rfl, rfl, rfl⟩

theorem create_duplicate_email_witness :
    (userRepository.Create memDB
        { rows := [{ ID := 1, Name := "Alice", Email := "alice@example.com", Age := 30 }] }
        { Name := "Bob", Email := "alice@example.com", Age := 25 }).2 =
        .error "user with email alice@example.com already exists" ∧
      (userRepository.Create memDB
        { rows := [{ ID := 1, Name := "Alice", Email := "alice@example.com", Age := 30 }] }
        { Name := "Bob", Email := "alice@example.com", Age := 25 }).1 =
        { rows := [{ ID := 1, Name := "Alice", Email := "alice@example.com", Age := 30 }] } ∧
      (userRepository.Create memDB
        { rows := [{ ID := 1, Name := "Alice", Email := "alice@example.com", Age := 30 }] }
        { Name := "Bob", Email := "alice@example.com", Age := 25 }).1.rows.length = 1 :=
  create_duplicate_email
    { rows := [{ ID := 1, Name := "Alice", Email := "alice@example.com", Age := 30 }] }
    { Name := "Bob", Email := "alice@example.com", Age := 25 } (by decide)

/-- C3. On every table and for every id that no row has, `userRepository.FindByID` returns
no user and fails with the not-found error `user with ID <id> not found`; and on every
database, a lookup that fails with any error other than the not-found sentinel is reported
as `error finding user: ...`, which is never equal to a not-found error. -/
theorem find_by_id_not_found :
    (∀ (db : DB) (id : Nat), (∀ r ∈ db.rows, r.ID ≠ id) →
        userRepository.FindByID memDB db id =
          .error ("user with ID " ++ toString id ++ " not found")) ∧
      (∀ (σ : Type) (g : Gorm σ) (s : σ) (id : Nat) (msg : String),
        g.First s id = .error (.driver msg) →
          userRepository.FindByID g s id = .error ("error finding user: " ++ msg) ∧
            ∀ n : Nat, "error finding user: " ++ msg ≠
              "user with ID " ++ toString n ++ " not found") := by
  constructor
  · intro db id habsent
    simp [userRepository.FindByID, memDB, DB.First, db.find_id_none _ habsent]
  · intro σ g s id msg hg
    refine ⟨?_, fun n => finding_ne_not_found msg n⟩
    simp [userRepository.FindByID, hg, GormError.Error]

theorem find_by_id_not_found_witness :
    userRepository.FindByID memDB
        { rows := [{ ID := 1, Name := "Alice", Email := "alice@example.com", Age := 30 }] }
        999 = .error "user with ID 999 not found" ∧
      userRepository.FindByID (faultyDB "connection refused") {} 999 =
        .error "error finding user: connection refused" :=
  ⟨find_by_id_not_found.1
      { rows := [{ ID := 1, Name := "Alice", Email := "alice@example.com", Age := 30 }] }
      999 (by decide),
   (find_by_id_not_found.2 DB (faultyDB "connection refused") {} 999
      "connection refused" rfl).1⟩

/-- C4. Email uniqueness is an invariant of the store under sequential use: from a table in
which no two records share an email, after any finite sequence of `userRepository.Create`
and `FindByID` calls, successful or failing, no two records share an email. -/
theorem emails_unique_invariant (db : DB) (calls : List Call) (h : EmailsUnique db) :
    EmailsUnique (runCalls db calls) := by
  unfold runCalls
  induction calls generalizing db with
  | nil => exact h
  | cons c cs ih => exact ih (c.run db) (call_keeps_unique db c h)

theorem emails_unique_invariant_witness :
    EmailsUnique (runCalls { rows := [{ ID := 1, Name := "Alice", Email := "a@x.io", Age := 30 }] }
      [.create { Name := "Bob", Email := "a@x.io", Age := 25 },
       .create { Name := "Bob", Email := "b@x.io", Age := 25 },
       .findByID 2,
       .create { ID := 1, Name := "Eve", Email := "e@x.io", Age := 25 }]) :=
  emails_unique_invariant _ _ (by decide)

/-! ## The handlers -/

/-- Past its two validation steps, `CreateUser` is the store call and the mapping of its
outcome. -/
theorem create_user_validated {σ : Type} (ParseAddress : String → Bool)
    (userRepo : UserRepository σ) (s : σ) (req : CreateUserRequest)
    (hname : req.Name ≠ "") (hemail : req.Email ≠ "") (hage : 1 ≤ req.Age ∧ req.Age ≤ 150)
    (hvalid : ParseAddress req.Email = true) :
    UserHandler.CreateUser ParseAddress userRepo s (some req) =
      match userRepo.Create s { Name := req.Name, Email := req.Email, Age := req.Age } with
      | (s', .error err) =>
        if err = "user with email " ++ req.Email ++ " already exists" then
          (s', http.Error err StatusConflict)
        else
          (s', http.Error "Failed to create user" StatusInternalServerError)
      | (s', .ok user') => (s', successResponse StatusCreated user') := by
  have h1 : ¬ (req.Name = "" ∨ req.Email = "" ∨ req.Age ≤ 0 ∨ req.Age > 150) := by
    rintro (h | h | h | h)
    · exact hname h
    · exact hemail h
    · omega
    · omega
  simp only [UserHandler.CreateUser, h1, if_false, hvalid, Bool.true_eq_false]

/-- A request that fails the first validation step is answered 400 and the store is not
touched, whatever the store is. -/
theorem create_user_basic_invalid {σ : Type} (ParseAddress : String → Bool)
    (userRepo : UserRepository σ) (s : σ) (req : CreateUserRequest)
    (h : req.Name = "" ∨ req.Email = "" ∨ req.Age ≤ 0 ∨ req.Age > 150) :
    UserHandler.CreateUser ParseAddress userRepo s (some req) =
      (s, http.Error "Invalid input: name, email, and age (1-150) are required"
        StatusBadRequest) := by
  simp only [UserHandler.CreateUser, h, if_true]

/-- A request whose email `ParseAddress` refuses is answered 400 and the store is not
touched, whatever the store is. -/
theorem create_user_invalid_email {σ : Type} (ParseAddress : String → Bool)
    (userRepo : UserRepository σ) (s : σ) (req : CreateUserRequest)
    (h : ParseAddress req.Email = false) :
    (UserHandler.CreateUser ParseAddress userRepo s (some req)).1 = s ∧
      (UserHandler.CreateUser ParseAddress userRepo s (some req)).2.Code = StatusBadRequest := by
  by_cases h1 : req.Name = "" ∨ req.Email = "" ∨ req.Age ≤ 0 ∨ req.Age > 150
  · rw [create_user_basic_invalid ParseAddress userRepo s req h1]
    exact ⟨rfl, rfl⟩
  · simp only [UserHandler.CreateUser, h1, if_false, h, if_true]
    exact ⟨trivial, rfl⟩

/-- C5, amended. For every decoded request with a non-empty name and a non-empty email that
passes the email-format check and that no stored record has, on a table whose largest id is
below `2 ^ 63 - 1`, `CreateUser` answers 201 Created exactly when `1 ≤ age ≤ 150`.  On every
store, every other age (0, 151, every negative age) is answered 400 Bad Request, and so is a
request with an empty name or an empty email, whatever its age. -/
theorem create_user_age_bounds :
    (∀ (ParseAddress : String → Bool) (db : DB) (req : CreateUserRequest),
        (∀ r ∈ db.rows, r.ID < 2 ^ 63 - 1) →
        req.Name ≠ "" → req.Email ≠ "" → ParseAddress req.Email = true →
        (∀ r ∈ db.rows, r.Email ≠ req.Email) →
          ((UserHandler.CreateUser ParseAddress (NewUserRepository memDB) db (some req)).2.Code =
              StatusCreated ↔ 1 ≤ req.Age ∧ req.Age ≤ 150)) ∧
      (∀ (σ : Type) (ParseAddress : String → Bool) (userRepo : UserRepository σ) (s : σ)
          (req : CreateUserRequest), ¬ (1 ≤ req.Age ∧ req.Age ≤ 150) →
          (UserHandler.CreateUser ParseAddress userRepo s (some req)).2.Code =
            StatusBadRequest) ∧
      (∀ (σ : Type) (ParseAddress : String → Bool) (userRepo : UserRepository σ) (s : σ)
          (req : CreateUserRequest), req.Name = "" ∨ req.Email = "" →
          (UserHandler.CreateUser ParseAddress userRepo s (some req)).2.Code =
            StatusBadRequest) := by
  have hbad : ∀ (σ : Type) (ParseAddress : String → Bool) (userRepo : UserRepository σ)
      (s : σ) (req : CreateUserRequest), ¬ (1 ≤ req.Age ∧ req.Age ≤ 150) →
      (UserHandler.CreateUser ParseAddress userRepo s (some req)).2.Code =
        StatusBadRequest := by
    intro σ ParseAddress userRepo s req hage
    rw [create_user_basic_invalid ParseAddress userRepo s req
      (Or.inr (Or.inr (by omega)))]
    rfl
  refine ⟨fun ParseAddress db req hroom hname hemail hvalid hfresh => ?_, hbad,
    fun σ ParseAddress userRepo s req h => ?_⟩
  · refine ⟨fun h => ?_, fun hage => ?_⟩
    · by_contra hage
      rw [hbad DB ParseAddress _ db req hage] at h
      exact absurd h (by decide)
    · rw [create_user_validated ParseAddress _ db req hname hemail hage hvalid]
      simp only [NewUserRepository]
      rw [create_fresh db _ rfl hroom hfresh]
      rfl
  · rw [create_user_basic_invalid ParseAddress userRepo s req
      (h.elim Or.inl (fun h => Or.inr (Or.inl h)))]
    rfl

theorem create_user_age_bounds_witness :
    (UserHandler.CreateUser rfc5322Mailbox (NewUserRepository memDB)
        { rows := [{ ID := 1, Name := "Alice", Email := "alice@example.com", Age := 30 }] }
        (some { Name := "John Doe", Email := "john@example.com", Age := 1 })).2.Code =
        StatusCreated ∧
      (UserHandler.CreateUser rfc5322Mailbox (NewUserRepository memDB) {}
        (some { Name := "John Doe", Email := "john@example.com", Age := 150 })).2.Code =
        StatusCreated ∧
      (UserHandler.CreateUser rfc5322Mailbox (NewUserRepository memDB) {}
        (some { Name := "John Doe", Email := "john@example.com", Age := 0 })).2.Code =
        StatusBadRequest ∧
      (UserHandler.CreateUser rfc5322Mailbox (NewUserRepository memDB) {}
        (some { Name := "John Doe", Email := "john@example.com", Age := 151 })).2.Code =
        StatusBadRequest ∧
      (UserHandler.CreateUser rfc5322Mailbox (NewUserRepository memDB) {}
        (some { Name := "John Doe", Email := "john@example.com", Age := -7 })).2.Code =
        StatusBadRequest ∧
      (UserHandler.CreateUser rfc5322Mailbox (NewUserRepository memDB) {}
        (some { Name := "", Email := "john@example.com", Age := 30 })).2.Code =
        StatusBadRequest :=
  ⟨(create_user_age_bounds.1 rfc5322Mailbox
      { rows := [{ ID := 1, Name := "Alice", Email := "alice@example.com", Age := 30 }] }
      { Name := "John Doe", Email := "john@example.com", Age := 1 }
      (by decide) (by decide) (by decide) (by decide) (by decide)).2 (by decide),
   (create_user_age_bounds.1 rfc5322Mailbox {}
      { Name := "John Doe", Email := "john@example.com", Age := 150 }
      (by decide) (by decide) (by decide) (by decide) (by decide)).2 (by decide),
   create_user_age_bounds.2.1 DB rfc5322Mailbox (NewUserRepository memDB) {}
      { Name := "John Doe", Email := "john@example.com", Age := 0 } (by decide),
   create_user_age_bounds.2.1 DB rfc5322Mailbox (NewUserRepository memDB) {}
      { Name := "John Doe", Email := "john@example.com", Age := 151 } (by decide),
   create_user_age_bounds.2.1 DB rfc5322Mailbox (NewUserRepository memDB) {}
      { Name := "John Doe", Email := "john@example.com", Age := -7 } (by decide),
   create_user_age_bounds.2.2 DB rfc5322Mailbox (NewUserRepository memDB) {}
      { Name := "", Email := "john@example.com", Age := 30 } (Or.inl rfl)⟩

/-- C5 as stated fails: on the table whose one row holds the last key `2 ^ 63 - 1`, the
request with a non-empty name, a fresh email that passes the email-format check and age 30
is answered 500 Internal Server Error, not 201: the insert has no key left. -/
theorem create_user_answers_500_without_key_left :
    rfc5322Mailbox "john@example.com" = true ∧
      (∀ r ∈ lastKeyTable.rows, r.Email ≠ "john@example.com") ∧
      UserHandler.CreateUser rfc5322Mailbox (NewUserRepository memDB) lastKeyTable
          (some { Name := "John Doe", Email := "john@example.com", Age := 30 }) =
        (lastKeyTable, http.Error "Failed to create user" StatusInternalServerError) ∧
      (UserHandler.CreateUser rfc5322Mailbox (NewUserRepository memDB) lastKeyTable
          (some { Name := "John Doe", Email := "john@example.com", Age := 30 })).2.Code ≠
        StatusCreated := by
  exact ⟨by decide, by decide, rfl, by decide⟩

/-- C6. For every request that passes validation and whose email a stored record has,
`CreateUser` answers 409 Conflict, whatever the email string is: the duplicate-email error
of `userRepository.Create` is the text the handler compares with.  Every other failure of
the store's `Create` is answered 500 Internal Server Error, never 409; so is, on every
database, a failure of the uniqueness lookup of `userRepository.Create`. -/
theorem create_user_conflict :
    (∀ (ParseAddress : String → Bool) (db : DB) (req : CreateUserRequest),
        req.Name ≠ "" → req.Email ≠ "" → 1 ≤ req.Age ∧ req.Age ≤ 150 →
        ParseAddress req.Email = true → (∃ r ∈ db.rows, r.Email = req.Email) →
          UserHandler.CreateUser ParseAddress (NewUserRepository memDB) db (some req) =
            (db, http.Error ("user with email " ++ req.Email ++ " already exists")
              StatusConflict)) ∧
      (∀ (σ : Type) (ParseAddress : String → Bool) (userRepo : UserRepository σ) (s s' : σ)
          (req : CreateUserRequest) (err : String),
        req.Name ≠ "" → req.Email ≠ "" → 1 ≤ req.Age ∧ req.Age ≤ 150 →
        ParseAddress req.Email = true →
        userRepo.Create s { Name := req.Name, Email := req.Email, Age := req.Age } =
          (s', .error err) →
        err ≠ "user with email " ++ req.Email ++ " already exists" →
          (UserHandler.CreateUser ParseAddress userRepo s (some req)).2.Code =
            StatusInternalServerError) ∧
      (∀ (σ : Type) (ParseAddress : String → Bool) (g : Gorm σ) (s : σ)
          (req : CreateUserRequest) (msg : String),
        req.Name ≠ "" → req.Email ≠ "" → 1 ≤ req.Age ∧ req.Age ≤ 150 →
        ParseAddress req.Email = true →
        g.FirstWhereEmail s req.Email = .error (.driver msg) →
          (UserHandler.CreateUser ParseAddress (NewUserRepository g) s (some req)).2.Code =
            StatusInternalServerError) := by
  refine ⟨?_, ?_, ?_⟩
  · intro ParseAddress db req hname hemail hage hvalid hdup
    rw [create_user_validated ParseAddress _ db req hname hemail hage hvalid]
    simp only [NewUserRepository]
    rw [create_duplicate db _ hdup]
    simp
  · intro σ ParseAddress userRepo s s' req err hname hemail hage hvalid hcreate hne
    rw [create_user_validated ParseAddress _ s req hname hemail hage hvalid, hcreate]
    simp only [hne, if_false]
    rfl
  · intro σ ParseAddress g s req msg hname hemail hage hvalid hg
    rw [create_user_validated ParseAddress _ s req hname hemail hage hvalid]
    simp only [NewUserRepository, userRepository.Create, hg, GormError.Error]
    simp only [ne_eq, reduceCtorEq, not_false_eq_true, if_true,
      checking_ne_duplicate msg req.Email, if_false]
    rfl

theorem create_user_conflict_witness :
    UserHandler.CreateUser rfc5322Mailbox (NewUserRepository memDB)
        { rows := [{ ID := 1, Name := "Alice", Email := "alice@example.com", Age := 30 }] }
        (some { Name := "Bob", Email := "alice@example.com", Age := 25 }) =
        ({ rows := [{ ID := 1, Name := "Alice", Email := "alice@example.com", Age := 30 }] },
          http.Error "user with email alice@example.com already exists" StatusConflict) ∧
      (UserHandler.CreateUser rfc5322Mailbox (NewUserRepository (faultyDB "disk full")) {}
        (some { Name := "Bob", Email := "bob@example.com", Age := 25 })).2.Code =
        StatusInternalServerError ∧
      (UserHandler.CreateUser rfc5322Mailbox
        { Create := fun s _ => (s, .error "disk full"), FindByID := fun _ _ => .error "" }
        ({} : DB) (some { Name := "Bob", Email := "bob@example.com", Age := 25 })).2.Code =
        StatusInternalServerError :=
  ⟨create_user_conflict.1 rfc5322Mailbox
      { rows := [{ ID := 1, Name := "Alice", Email := "alice@example.com", Age := 30 }] }
      { Name := "Bob", Email := "alice@example.com", Age := 25 }
      (by decide) (by decide) (by decide) (by decide) (by decide),
   create_user_conflict.2.2 DB rfc5322Mailbox (faultyDB "disk full") {}
      { Name := "Bob", Email := "bob@example.com", Age := 25 } "disk full"
      (by decide) (by decide) (by decide) (by decide) rfl,
   create_user_conflict.2.1 DB rfc5322Mailbox
      { Create := fun s _ => (s, .error "disk full"), FindByID := fun _ _ => .error "" }
      {} {} { Name := "Bob", Email := "bob@example.com", Age := 25 } "disk full"
      (by decide) (by decide) (by decide) (by decide) rfl (by decide)⟩

/-- Past the parsing of the id, `GetUser` is the store call and the mapping of its
outcome. -/
theorem get_user_parsed {σ : Type} (userRepo : UserRepository σ) (s : σ) (idStr : String)
    (id : Nat) (hparse : strconv.ParseUint idStr 10 32 = .ok id) :
    UserHandler.GetUser userRepo s idStr =
      match userRepo.FindByID s id with
      | .error err =>
        if err = "user with ID " ++ toString id ++ " not found" then
          http.Error err StatusNotFound
        else
          http.Error "Failed to retrieve user" StatusInternalServerError
      | .ok user => successResponse StatusOK user := by
  have hne : idStr ≠ "" := by
    intro h
    rw [h] at hparse
    simp [strconv.ParseUint] at hparse
  simp only [UserHandler.GetUser, hne, if_false, hparse]

/-- C9. Storage faults are opaque to the client.  For any two runs of `CreateUser` on the
same request, a request that reaches the store, in which the store's `Create` fails with
errors that are not the duplicate-email error, both responses are the same: status 500 and
the fixed plain-text body `Failed to create user`, a function of nothing in the store's
error.  The same holds for `GetUser`, the not-found error and `Failed to retrieve user`. -/
theorem storage_fault_response_is_fixed :
    (∀ (σ : Type) (ParseAddress : String → Bool) (repo₁ repo₂ : UserRepository σ)
        (s₁ s₂ t₁ t₂ : σ) (req : CreateUserRequest) (err₁ err₂ : String),
        req.Name ≠ "" → req.Email ≠ "" → 1 ≤ req.Age ∧ req.Age ≤ 150 →
        ParseAddress req.Email = true →
        repo₁.Create s₁ { Name := req.Name, Email := req.Email, Age := req.Age } =
          (t₁, .error err₁) →
        repo₂.Create s₂ { Name := req.Name, Email := req.Email, Age := req.Age } =
          (t₂, .error err₂) →
        err₁ ≠ "user with email " ++ req.Email ++ " already exists" →
        err₂ ≠ "user with email " ++ req.Email ++ " already exists" →
          (UserHandler.CreateUser ParseAddress repo₁ s₁ (some req)).2 =
              (UserHandler.CreateUser ParseAddress repo₂ s₂ (some req)).2 ∧
            (UserHandler.CreateUser ParseAddress repo₁ s₁ (some req)).2 =
              { Code := 500, ContentType := "text/plain; charset=utf-8",
                Body := .text "Failed to create user\n" }) ∧
      (∀ (σ : Type) (repo₁ repo₂ : UserRepository σ) (s₁ s₂ : σ) (idStr : String) (id : Nat)
        (err₁ err₂ : String),
        strconv.ParseUint idStr 10 32 = .ok id →
        repo₁.FindByID s₁ id = .error err₁ → repo₂.FindByID s₂ id = .error err₂ →
        err₁ ≠ "user with ID " ++ toString id ++ " not found" →
        err₂ ≠ "user with ID " ++ toString id ++ " not found" →
          UserHandler.GetUser repo₁ s₁ idStr = UserHandler.GetUser repo₂ s₂ idStr ∧
            UserHandler.GetUser repo₁ s₁ idStr =
              { Code := 500, ContentType := "text/plain; charset=utf-8",
                Body := .text "Failed to retrieve user\n" }) := by
  have hc : ∀ (σ : Type) (ParseAddress : String → Bool) (repo : UserRepository σ)
      (s t : σ) (req : CreateUserRequest) (err : String),
      req.Name ≠ "" → req.Email ≠ "" → 1 ≤ req.Age ∧ req.Age ≤ 150 →
      ParseAddress req.Email = true →
      repo.Create s { Name := req.Name, Email := req.Email, Age := req.Age } =
        (t, .error err) →
      err ≠ "user with email " ++ req.Email ++ " already exists" →
        (UserHandler.CreateUser ParseAddress repo s (some req)).2 =
          { Code := 500, ContentType := "text/plain; charset=utf-8",
            Body := .text "Failed to create user\n" } := by
    intro σ ParseAddress repo s t req err hname hemail hage hvalid hcreate hne
    rw [create_user_validated ParseAddress _ s req hname hemail hage hvalid, hcreate]
    simp only [hne, if_false]
    rfl
  have hg : ∀ (σ : Type) (repo : UserRepository σ) (s : σ) (idStr : String) (id : Nat)
      (err : String), strconv.ParseUint idStr 10 32 = .ok id →
      repo.FindByID s id = .error err →
      err ≠ "user with ID " ++ toString id ++ " not found" →
        UserHandler.GetUser repo s idStr =
          { Code := 500, ContentType := "text/plain; charset=utf-8",
            Body := .text "Failed to retrieve user\n" } := by
    intro σ repo s idStr id err hparse hfind hne
    rw [get_user_parsed repo s idStr id hparse, hfind]
    simp only [hne, if_false]
    rfl
  refine ⟨?_, ?_⟩
  · intro σ ParseAddress repo₁ repo₂ s₁ s₂ t₁ t₂ req err₁ err₂ hname hemail hage hvalid
      h₁ h₂ hne₁ hne₂
    rw [hc σ ParseAddress repo₁ s₁ t₁ req err₁ hname hemail hage hvalid h₁ hne₁,
      hc σ ParseAddress repo₂ s₂ t₂ req err₂ hname hemail hage hvalid h₂ hne₂]
    exact ⟨rfl, rfl⟩
  · intro σ repo₁ repo₂ s₁ s₂ idStr id err₁ err₂ hparse h₁ h₂ hne₁ hne₂
    rw [hg σ repo₁ s₁ idStr id err₁ hparse h₁ hne₁, hg σ repo₂ s₂ idStr id err₂ hparse h₂ hne₂]
    exact ⟨rfl, rfl⟩

theorem storage_fault_response_is_fixed_witness :
    (UserHandler.CreateUser rfc5322Mailbox (NewUserRepository (faultyDB "disk full")) {}
        (some { Name := "Bob", Email := "bob@example.com", Age := 25 })).2 =
      (UserHandler.CreateUser rfc5322Mailbox
        (NewUserRepository (faultyDB "password authentication failed for user postgres")) {}
        (some { Name := "Bob", Email := "bob@example.com", Age := 25 })).2 ∧
      UserHandler.GetUser (NewUserRepository (faultyDB "disk full")) {} "7" =
        UserHandler.GetUser
          (NewUserRepository (faultyDB "password authentication failed for user postgres"))
          {} "7" :=
  ⟨(storage_fault_response_is_fixed.1 DB rfc5322Mailbox (NewUserRepository (faultyDB "disk full"))
      (NewUserRepository (faultyDB "password authentication failed for user postgres"))
      {} {} {} {} { Name := "Bob", Email := "bob@example.com", Age := 25 }
      "error checking email uniqueness: disk full"
      "error checking email uniqueness: password authentication failed for user postgres"
      (by decide) (by decide) (by decide) (by decide) rfl rfl (by decide) (by decide)).1,
   (storage_fault_response_is_fixed.2 DB (NewUserRepository (faultyDB "disk full"))
      (NewUserRepository (faultyDB "password authentication failed for user postgres"))
      {} {} "7" 7 "error finding user: disk full"
      "error finding user: password authentication failed for user postgres"
      rfl rfl rfl (by decide) (by decide)).1⟩

/-! ## strconv.ParseUint in base 10 with 32 bits -/

theorem decimalFrom_ge (cs : List Char) (n : Nat) : n ≤ decimalFrom n cs := by
  unfold decimalFrom
  induction cs generalizing n with
  | nil => exact Nat.le_refl _
  | cons c cs ih =>
    simp only [List.foldl_cons]
    exact Nat.le_trans (by omega) (ih _)

/-- One turn of the loop on a digit, for an accumulator that fits in 32 bits: nothing wraps,
and the turn fails exactly when the new value leaves the 32 bits. -/
theorem parseLoop_digit_step (c : Char) (cs : List Char) (n : Nat) (hn : n ≤ 2 ^ 32 - 1)
    (hc : isDecimalDigit c = true) :
    strconv.parseLoop 10 (2 ^ 32 - 1) ((2 ^ 64 - 1) / 10 + 1) (c :: cs) n =
      if n * 10 + (c.toNat - 48) > 2 ^ 32 - 1 then .error .ErrRange
      else strconv.parseLoop 10 (2 ^ 32 - 1) ((2 ^ 64 - 1) / 10 + 1) cs
        (n * 10 + (c.toNat - 48)) := by
  simp only [isDecimalDigit, decide_eq_true_eq] at hc
  obtain ⟨h0, h9⟩ := hc
  have h0' : 48 ≤ c.toNat := h0
  have h9' : c.toNat ≤ 57 := h9
  have hmod1 : n * 10 % 2 ^ 64 = n * 10 := Nat.mod_eq_of_lt (by omega)
  have hmod2 : (n * 10 + (c.toNat - 48)) % 2 ^ 64 = n * 10 + (c.toNat - 48) :=
    Nat.mod_eq_of_lt (by omega)
  have hz : '0'.toNat = 48 := rfl
  have hd : ¬ (c.toNat - 48 ≥ 10) := by omega
  have hcut : ¬ (n ≥ (2 ^ 64 - 1) / 10 + 1) := by omega
  have hlt : ¬ (n * 10 + (c.toNat - 48) < n * 10) := by omega
  have hcond : '0'.toNat ≤ c.toNat ∧ c.toNat ≤ '9'.toNat := ⟨h0, h9⟩
  rw [strconv.parseLoop]
  simp only [if_pos hcond]
  simp only [hz, hd, hcut, if_false, hmod1, hmod2, hlt, false_or]

/-- A character that is no digit ends the loop with a syntax error. -/
theorem parseLoop_other_step (c : Char) (cs : List Char) (n : Nat)
    (hc : isDecimalDigit c = false) :
    strconv.parseLoop 10 (2 ^ 32 - 1) ((2 ^ 64 - 1) / 10 + 1) (c :: cs) n =
      .error .ErrSyntax := by
  have hc' : ¬ ('0'.toNat ≤ c.toNat ∧ c.toNat ≤ '9'.toNat) := by
    simpa [isDecimalDigit] using hc
  rw [strconv.parseLoop]
  simp only [if_neg hc']
  by_cases h1 : 'a'.toNat ≤ strconv.lower c.toNat ∧ strconv.lower c.toNat ≤ 'z'.toNat
  · have hd : strconv.lower c.toNat - 'a'.toNat + 10 ≥ 10 := by omega
    simp only [if_pos h1, if_pos hd]
  · simp only [if_neg h1]

/-- On digits, the loop returns the value read when it fits in 32 bits and a range error
when it does not. -/
theorem parseLoop_digits (cs : List Char) (n : Nat) (hn : n ≤ 2 ^ 32 - 1)
    (hall : cs.all isDecimalDigit = true) :
    strconv.parseLoop 10 (2 ^ 32 - 1) ((2 ^ 64 - 1) / 10 + 1) cs n =
      if decimalFrom n cs ≤ 2 ^ 32 - 1 then .ok (decimalFrom n cs) else .error .ErrRange := by
  induction cs generalizing n with
  | nil =>
    simp only [strconv.parseLoop, decimalFrom, List.foldl_nil]
    rw [if_pos hn]
  | cons c cs ih =>
    simp only [List.all_cons, Bool.and_eq_true] at hall
    obtain ⟨hc, hcs⟩ := hall
    have hstep : decimalFrom n (c :: cs) = decimalFrom (n * 10 + (c.toNat - 48)) cs := rfl
    rw [hstep, parseLoop_digit_step c cs n hn hc]
    by_cases hbig : n * 10 + (c.toNat - 48) > 2 ^ 32 - 1
    · have hge := decimalFrom_ge cs (n * 10 + (c.toNat - 48))
      have hnot : ¬ decimalFrom (n * 10 + (c.toNat - 48)) cs ≤ 2 ^ 32 - 1 := by omega
      simp only [hbig, if_true, hnot, if_false]
    · simp only [hbig, if_false]
      exact ih _ (by omega) hcs

/-- With a character that is no digit, the loop fails. -/
theorem parseLoop_not_digits (cs : List Char) (n : Nat) (hn : n ≤ 2 ^ 32 - 1)
    (hall : cs.all isDecimalDigit = false) :
    ∃ e, strconv.parseLoop 10 (2 ^ 32 - 1) ((2 ^ 64 - 1) / 10 + 1) cs n = .error e := by
  induction cs generalizing n with
  | nil => simp at hall
  | cons c cs ih =>
    cases hc : isDecimalDigit c with
    | false => exact ⟨_, parseLoop_other_step c cs n hc⟩
    | true =>
      rw [parseLoop_digit_step c cs n hn hc]
      by_cases hbig : n * 10 + (c.toNat - 48) > 2 ^ 32 - 1
      · exact ⟨.ErrRange, by simp only [hbig, if_true]⟩
      · simp only [hbig, if_false]
        refine ih _ (by omega) ?_
        simpa [List.all_cons, hc] using hall

/-- `ParseUint(s, 10, 32)` succeeds exactly on the non-empty strings of decimal digits whose
value is below `2 ^ 32`, and then returns that value. -/
theorem parseUint_10_32 (s : String) (id : Nat) :
    strconv.ParseUint s 10 32 = .ok id ↔
      isDecimalText s = true ∧ decimalValue s < 2 ^ 32 ∧ id = decimalValue s := by
  unfold strconv.ParseUint isDecimalText decimalValue
  by_cases hs : s = ""
  · simp [hs]
  · simp only [hs, if_false, bne_iff_ne, ne_eq, not_false_eq_true, Bool.and_eq_true,
      true_and]
    cases hall : s.toList.all isDecimalDigit with
    | true =>
      rw [parseLoop_digits s.toList 0 (by omega) hall]
      by_cases hv : decimalFrom 0 s.toList ≤ 2 ^ 32 - 1
      · simp only [hv, if_true, Except.ok.injEq, true_and]
        constructor
        · intro h; exact ⟨by omega, h.symm⟩
        · intro h; exact h.2.symm
      · simp only [hv, if_false, reduceCtorEq, true_and, false_iff, not_and]
        intro h; omega
    | false =>
      obtain ⟨e, he⟩ := parseLoop_not_digits s.toList 0 (by omega) hall
      rw [he]
      simp

/-- When the id does not parse, `GetUser` answers 400 with `Invalid user ID`, or with
`User ID is required` when the parameter is empty. -/
theorem get_user_unparsed {σ : Type} (userRepo : UserRepository σ) (s : σ) (idStr : String)
    (e : NumError) (hparse : strconv.ParseUint idStr 10 32 = .error e) :
    (UserHandler.GetUser userRepo s idStr).Code = StatusBadRequest ∧
      ∃ msg, UserHandler.GetUser userRepo s idStr = http.Error msg StatusBadRequest := by
  by_cases hs : idStr = ""
  · simp only [UserHandler.GetUser, hs, if_true]
    exact ⟨rfl, _, rfl⟩
  · simp only [UserHandler.GetUser, hs, if_false, hparse]
    exact ⟨rfl, _, rfl⟩

/-- C7, amended. For every id path parameter that is the decimal text of an integer in
`[0, 2 ^ 32 - 1]` and that names no stored user, `GetUser` answers 404 Not Found; and on
every store it answers 400 Bad Request exactly when the parameter is absent, is not a string
of decimal digits, or denotes an integer above `2 ^ 32 - 1`. -/
theorem get_user_not_found_32_bits :
    (∀ (db : DB) (idStr : String), isDecimalText idStr = true → decimalValue idStr < 2 ^ 32 →
        (∀ r ∈ db.rows, r.ID ≠ decimalValue idStr) →
          UserHandler.GetUser (NewUserRepository memDB) db idStr =
            http.Error ("user with ID " ++ toString (decimalValue idStr) ++ " not found")
              StatusNotFound) ∧
      (∀ (σ : Type) (userRepo : UserRepository σ) (s : σ) (idStr : String),
        (UserHandler.GetUser userRepo s idStr).Code = StatusBadRequest ↔
          (idStr = "" ∨ isDecimalText idStr = false ∨ 2 ^ 32 ≤ decimalValue idStr)) := by
  refine ⟨?_, ?_⟩
  · intro db idStr htext hval habsent
    have hparse : strconv.ParseUint idStr 10 32 = .ok (decimalValue idStr) :=
      (parseUint_10_32 idStr _).2 ⟨htext, hval, rfl⟩
    rw [get_user_parsed _ db idStr _ hparse]
    simp [NewUserRepository, userRepository.FindByID, memDB, DB.First,
      db.find_id_none _ habsent]
  · intro σ userRepo s idStr
    cases hparse : strconv.ParseUint idStr 10 32 with
    | error e =>
      have hnot : ¬ (isDecimalText idStr = true ∧ decimalValue idStr < 2 ^ 32) := by
        intro h
        have := (parseUint_10_32 idStr (decimalValue idStr)).2 ⟨h.1, h.2, rfl⟩
        rw [hparse] at this
        cases this
      refine ⟨fun _ => ?_, fun _ => (get_user_unparsed userRepo s idStr e hparse).1⟩
      by_cases ht : isDecimalText idStr = true
      · exact Or.inr (Or.inr (by
          have : ¬ decimalValue idStr < 2 ^ 32 := fun h => hnot ⟨ht, h⟩
          omega))
      · exact Or.inr (Or.inl (by simpa using ht))
    | ok id =>
      obtain ⟨htext, hval, -⟩ := (parseUint_10_32 idStr id).1 hparse
      have hne : idStr ≠ "" := by
        intro h; rw [h] at htext; exact absurd htext (by decide)
      have hcode : (UserHandler.GetUser userRepo s idStr).Code ≠ StatusBadRequest := by
        rw [get_user_parsed userRepo s idStr id hparse]
        cases userRepo.FindByID s id with
        | ok user => simp [successResponse, StatusOK, StatusBadRequest]
        | error err =>
          by_cases he : err = "user with ID " ++ toString id ++ " not found"
          · simp [he, http.Error, StatusNotFound, StatusBadRequest]
          · simp [he, http.Error, StatusInternalServerError, StatusBadRequest]
      constructor
      · intro h; exact absurd h hcode
      · rintro (h | h | h)
        · exact absurd h hne
        · rw [htext] at h; cases h
        · omega

theorem get_user_not_found_32_bits_witness :
    UserHandler.GetUser (NewUserRepository memDB)
        { rows := [{ ID := 1, Name := "Alice", Email := "alice@example.com", Age := 30 }] }
        "4294967295" = http.Error "user with ID 4294967295 not found" StatusNotFound :=
  get_user_not_found_32_bits.1
    { rows := [{ ID := 1, Name := "Alice", Email := "alice@example.com", Age := 30 }] }
    "4294967295" (by decide) (by decide) (by decide)

/-- C7 as stated fails: `4294967296` is the decimal text of a non-negative integer and names
no stored user, and `GetUser` answers 400 Bad Request, not 404. -/
theorem get_user_rejects_id_above_32_bits :
    isDecimalText "4294967296" = true ∧ decimalValue "4294967296" = 4294967296 ∧
      (∀ r ∈ ({} : DB).rows, r.ID ≠ 4294967296) ∧
      (UserHandler.GetUser (NewUserRepository memDB) {} "4294967296").Code = StatusBadRequest ∧
      (UserHandler.GetUser (NewUserRepository memDB) {} "4294967296").Code ≠ StatusNotFound := by
  refine ⟨by decide, by decide, by decide, by decide, by decide⟩

/-- Every error exit of the two handlers goes through `http.Error` and none through the
`responses` helpers: an error response of `CreateUser` (400, 409 or 500) or of `GetUser`
(400, 404 or 500) has content type `text/plain` and a body that is the error message
followed by a newline, where the helpers would write the JSON error envelope. -/
theorem error_responses_are_plain_text :
    (∀ (σ : Type) (ParseAddress : String → Bool) (userRepo : UserRepository σ) (s : σ)
        (body : Option CreateUserRequest),
        (UserHandler.CreateUser ParseAddress userRepo s body).2.Code = StatusCreated ∨
          (((UserHandler.CreateUser ParseAddress userRepo s body).2.Code = StatusBadRequest ∨
              (UserHandler.CreateUser ParseAddress userRepo s body).2.Code = StatusConflict ∨
              (UserHandler.CreateUser ParseAddress userRepo s body).2.Code =
                StatusInternalServerError) ∧
            (UserHandler.CreateUser ParseAddress userRepo s body).2.ContentType =
              "text/plain; charset=utf-8" ∧
            (∃ msg : String,
              (UserHandler.CreateUser ParseAddress userRepo s body).2.Body =
                .text (msg ++ "\n")) ∧
            isErrorEnvelope (UserHandler.CreateUser ParseAddress userRepo s body).2.Body =
              false)) ∧
      (∀ (σ : Type) (userRepo : UserRepository σ) (s : σ) (idStr : String),
        (UserHandler.GetUser userRepo s idStr).Code = StatusOK ∨
          (((UserHandler.GetUser userRepo s idStr).Code = StatusBadRequest ∨
              (UserHandler.GetUser userRepo s idStr).Code = StatusNotFound ∨
              (UserHandler.GetUser userRepo s idStr).Code = StatusInternalServerError) ∧
            (UserHandler.GetUser userRepo s idStr).ContentType = "text/plain; charset=utf-8" ∧
            (∃ msg : String,
              (UserHandler.GetUser userRepo s idStr).Body = .text (msg ++ "\n")) ∧
            isErrorEnvelope (UserHandler.GetUser userRepo s idStr).Body = false)) := by
  have hplain : ∀ (msg : String) (code : Nat),
      (http.Error msg code).ContentType = "text/plain; charset=utf-8" ∧
        (∃ m : String, (http.Error msg code).Body = .text (m ++ "\n")) ∧
        isErrorEnvelope (http.Error msg code).Body = false := by
    intro msg code
    exact ⟨rfl, ⟨msg, rfl⟩, rfl⟩
  refine ⟨?_, ?_⟩
  · intro σ ParseAddress userRepo s body
    cases body with
    | none => exact Or.inr ⟨Or.inl rfl, hplain _ _⟩
    | some req =>
      by_cases h1 : req.Name = "" ∨ req.Email = "" ∨ req.Age ≤ 0 ∨ req.Age > 150
      · rw [create_user_basic_invalid ParseAddress userRepo s req h1]
        exact Or.inr ⟨Or.inl rfl, hplain _ _⟩
      · cases hv : ParseAddress req.Email with
        | false =>
          simp only [UserHandler.CreateUser, h1, if_false, hv, if_true]
          exact Or.inr ⟨Or.inl rfl, hplain _ _⟩
        | true =>
          have hname : req.Name ≠ "" := fun h => h1 (Or.inl h)
          have hemail : req.Email ≠ "" := fun h => h1 (Or.inr (Or.inl h))
          have hage : 1 ≤ req.Age ∧ req.Age ≤ 150 := by
            constructor
            · by_contra h; exact h1 (Or.inr (Or.inr (Or.inl (by omega))))
            · by_contra h; exact h1 (Or.inr (Or.inr (Or.inr (by omega))))
          rw [create_user_validated ParseAddress userRepo s req hname hemail hage hv]
          rcases hcreate : userRepo.Create s
              { Name := req.Name, Email := req.Email, Age := req.Age } with ⟨s', res⟩
          cases res with
          | ok user => exact Or.inl rfl
          | error err =>
            by_cases he : err = "user with email " ++ req.Email ++ " already exists"
            · simp only [he, if_true]
              exact Or.inr ⟨Or.inr (Or.inl rfl), hplain _ _⟩
            · simp only [he, if_false]
              exact Or.inr ⟨Or.inr (Or.inr rfl), hplain _ _⟩
  · intro σ userRepo s idStr
    cases hparse : strconv.ParseUint idStr 10 32 with
    | error e =>
      obtain ⟨hcode, msg, hmsg⟩ := get_user_unparsed userRepo s idStr e hparse
      rw [hmsg]
      exact Or.inr ⟨Or.inl rfl, hplain _ _⟩
    | ok id =>
      rw [get_user_parsed userRepo s idStr id hparse]
      cases userRepo.FindByID s id with
      | ok user => exact Or.inl rfl
      | error err =>
        by_cases he : err = "user with ID " ++ toString id ++ " not found"
        · simp only [he, if_true]
          exact Or.inr ⟨Or.inr (Or.inl rfl), hplain _ _⟩
        · simp only [he, if_false]
          exact Or.inr ⟨Or.inr (Or.inr rfl), hplain _ _⟩

/-- C8, at the failing input. The 400 response of `GetUser` to the id `abc` has the
plain-text body `Invalid user ID`, which is not the error envelope, the JSON object with
`status` equal to `error` and a string under `error` that `responses.BadRequest` writes for
the same message. -/
theorem get_user_error_body_is_no_envelope :
    (UserHandler.GetUser (NewUserRepository memDB) {} "abc").Code = StatusBadRequest ∧
      (UserHandler.GetUser (NewUserRepository memDB) {} "abc").Body =
        .text "Invalid user ID\n" ∧
      isErrorEnvelope (UserHandler.GetUser (NewUserRepository memDB) {} "abc").Body = false ∧
      isErrorEnvelope (responses.BadRequest "Invalid user ID").Body = true := by
  exact ⟨rfl, rfl, rfl, rfl⟩

/-- C10, at the failing input. With a validator that accepts the RFC 5322 address
`Barry Gibbs <bg@example.com>`, as `mail.ParseAddress` does, `CreateUser` answers 201 and
the store holds a user whose email field is that whole string, which is no `addr-spec`. -/
theorem create_user_persists_name_addr (ParseAddress : String → Bool)
    (haccepts : ParseAddress "Barry Gibbs <bg@example.com>" = true) :
    (UserHandler.CreateUser ParseAddress (NewUserRepository memDB) {}
        (some { Name := "Barry", Email := "Barry Gibbs <bg@example.com>", Age := 30 })).2.Code =
        StatusCreated ∧
      (UserHandler.CreateUser ParseAddress (NewUserRepository memDB) {}
        (some { Name := "Barry", Email := "Barry Gibbs <bg@example.com>", Age := 30 })).1.rows =
        [{ ID := 1, Name := "Barry", Email := "Barry Gibbs <bg@example.com>", Age := 30,
           CreatedAt := 1 }] ∧
      specAddrSpec "Barry Gibbs <bg@example.com>" = false := by
  rw [create_user_validated ParseAddress _ _ _ (by decide) (by decide) (by decide) haccepts]
  exact ⟨rfl, rfl, by decide⟩

theorem create_user_persists_name_addr_witness :
    rfc5322Mailbox "Barry Gibbs <bg@example.com>" = true ∧
      (UserHandler.CreateUser rfc5322Mailbox (NewUserRepository memDB) {}
        (some { Name := "Barry", Email := "Barry Gibbs <bg@example.com>", Age := 30 })).2.Code =
        StatusCreated :=
  ⟨by decide, (create_user_persists_name_addr rfc5322Mailbox (by decide)).1⟩

end UserService
